import Mathlib

/-!
Verification of the source-aggregation core of the `news_collector`
repository: the `NewsItem` data model (`src/sources/base.py`), the source
registry (`src/sources/base.py`), and the fetch/aggregate/dedup logic of
`NewsFetcher` (`src/skills/news_fetcher.py`), together with the
upstream-facing fetch loops of the three concrete sources
(`src/sources/hackernews.py`, `src/sources/rss_feeds.py`,
`src/sources/github_trending.py`).

The Python code is embedded shallowly: asynchronous fan-out (gather with
return_exceptions) is modelled by evaluating each source's fetch function to
an `Except` value (ok list of items, or error — a raised exception); network
and parsing of external payloads are modelled as explicit inputs to the
fetch functions.
-/

namespace NewsCollector

/-- Python `str.strip` on the character list: drop whitespace from the front,
then from the back (via reverse). -/
def pyStripList (l : List Char) : List Char :=
  ((l.dropWhile Char.isWhitespace).reverse.dropWhile Char.isWhitespace).reverse

/-- Python `str.strip`, as used by `NewsItem.__post_init__`. -/
def pyStrip (s : String) : String :=
  ⟨pyStripList s.data⟩

/-- `NewsItem` (src/sources/base.py lines 21-60): the normalized news
record.  `extra` is a Python dict of source-specific auxiliary data, modelled
as an association list; `score` is a Python int. -/
structure NewsItem where
  title : String
  url : String
  summary : String
  source : String
  published_at : String
  score : Int
  extra : List (String × String)
deriving DecidableEq, Repr

/-- The `NewsItem` constructor including `__post_init__` (lines 45-48):
title and summary are stripped of surrounding whitespace (in Python,
`self.title.strip() if self.title else ""`, which equals `strip` also on the
empty string); the remaining fields are stored unchanged. -/
def NewsItem.make (title url summary source published_at : String)
    (score : Int) (extra : List (String × String)) : NewsItem :=
  { title := pyStrip title
    url := url
    summary := pyStrip summary
    source := source
    published_at := published_at
    score := score
    extra := extra }

/-- `NewsItem` built with only the required arguments, the dataclass's
declared defaults filled in: `summary = ""`, `source = ""`,
`published_at = ""`, `score = 0`, `extra = {}` (src/sources/base.py lines
39-43). -/
def NewsItem.makeDefault (title url : String) : NewsItem :=
  NewsItem.make title url "" "" "" 0 []

/-- The plain key-value record produced by `NewsItem.to_dict`
(src/sources/base.py lines 50-60): all seven fields, verbatim. -/
structure NewsDict where
  title : String
  url : String
  summary : String
  source : String
  published_at : String
  score : Int
  extra : List (String × String)
deriving DecidableEq, Repr

/-- `NewsItem.to_dict` (src/sources/base.py lines 50-60). -/
def NewsItem.to_dict (i : NewsItem) : NewsDict :=
  { title := i.title
    url := i.url
    summary := i.summary
    source := i.source
    published_at := i.published_at
    score := i.score
    extra := i.extra }

/-- Reconstruction `NewsItem(**item)` from a plain record
(src/main.py line 146): the dataclass constructor runs `__post_init__`
again. -/
def newsItemOfDict (d : NewsDict) : NewsItem :=
  NewsItem.make d.title d.url d.summary d.source d.published_at d.score d.extra

/-- A registered news source (src/sources/base.py lines 63-105): its class
attributes `name` and `enabled`, and the behaviour of an instance's
`fetch(limit)` coroutine.  A fetch either returns a list of items (`ok`) or
raises an exception (`error`, carrying the message). -/
structure Source where
  name : String
  enabled : Bool
  fetch : Nat → Except String (List NewsItem)

/-- The registry `_registry` (src/sources/base.py line 111): a Python dict
from name to source class, modelled as a list in insertion order with names
as keys. -/
abbrev Registry := List Source

/-- `register_source` (src/sources/base.py lines 114-130): dict insertion
`_registry[cls.name] = cls` — replace in place on an existing key (Python
dicts keep the original position), append otherwise. -/
def register_source (reg : Registry) (s : Source) : Registry :=
  if (List.any reg fun t => t.name = s.name) then
    List.map (fun t => if t.name = s.name then s else t) reg
  else
    List.append reg [s]

/-- `get_enabled_sources` (src/sources/base.py lines 138-140): the sources
whose `enabled` flag is true, in registry order. -/
def get_enabled_sources (reg : Registry) : List Source :=
  List.filter (fun s => s.enabled) reg

/-- `get_source` (src/sources/base.py lines 143-145): `_registry.get(name)`:
point lookup, `none` when absent. -/
def get_source (reg : Registry) (name : String) : Option Source :=
  List.find? (fun s => s.name = name) reg

/-- The URL-dedup loop of `fetch_all` (src/skills/news_fetcher.py lines
71-79) and of `fetch_sources` (lines 120-128), with the running `seen_urls`
set made explicit: an item is appended only when `item.url` is truthy
(non-empty) AND not yet seen. -/
def dedupAux (seen : List String) : List NewsItem → List NewsItem
  | [] => []
  | i :: rest =>
    if i.url ≠ "" ∧ i.url ∉ seen then
      i :: dedupAux (i.url :: seen) rest
    else
      dedupAux seen rest

/-- The URL-dedup step, started with an empty `seen_urls` set. -/
def dedup (items : List NewsItem) : List NewsItem :=
  dedupAux [] items

/-- The aggregation loop over `asyncio.gather(..., return_exceptions=True)`
results (src/skills/news_fetcher.py lines 63-69 and 115-118): exceptions are
skipped, lists are concatenated with `extend`. -/
def collectResults (rs : List (Except String (List NewsItem))) : List NewsItem :=
  List.foldl
    (fun acc r =>
      match r with
      | Except.ok l => acc ++ l
      | Except.error _ => acc)
    [] rs

/-- `NewsFetcher.fetch_all` (src/skills/news_fetcher.py lines 39-79):
enabled sources are fetched concurrently with `return_exceptions=True`; an
empty enabled set short-circuits to `[]`; results are aggregated and
URL-deduplicated.  Total: no exception escapes to the caller. -/
def fetch_all (reg : Registry) (limit : Nat) : List NewsItem :=
  let sources := get_enabled_sources reg
  if sources.isEmpty then
    []
  else
    dedup (collectResults (List.map (fun s => s.fetch limit) sources))

/-- `NewsFetcher.fetch_source` (src/skills/news_fetcher.py lines 81-99):
look the name up in the full registry (the `enabled` flag plays no part);
when absent print an error and return `[]`; otherwise delegate to the
source's `fetch`, whose exception (if any) propagates to the caller. -/
def fetch_source (reg : Registry) (name : String) (limit : Nat) :
    Except String (List NewsItem) :=
  match get_source reg name with
  | none => Except.ok []
  | some s => s.fetch limit

/-- `NewsFetcher.fetch_sources` (src/skills/news_fetcher.py lines 101-128):
run `fetch_source` for each name under `gather(..., return_exceptions=True)`,
keep only list results (an exception result is not a list and is silently
discarded), concatenate and URL-deduplicate. -/
def fetch_sources (reg : Registry) (names : List String) (limit : Nat) :
    List NewsItem :=
  dedup (collectResults (List.map (fun n => fetch_source reg n limit) names))

/-- The items a gather slot contributes to the aggregation loop: the list on
success, nothing on an exception. -/
def okItems : Except String (List NewsItem) → List NewsItem
  | Except.ok l => l
  | Except.error _ => []

/-- Written from the amended dedup claim: scanning in order, keep the first
occurrence of each non-empty url (removing the later items carrying the same
url), and remove every item whose url is empty.  Compared below against
`dedup`, the loop translated from the code. -/
def dedupSpec : List NewsItem → List NewsItem
  | [] => []
  | i :: rest =>
    if i.url = "" then dedupSpec rest
    else i :: dedupSpec (List.filter (fun j => j.url ≠ i.url) rest)
termination_by l => l.length
decreasing_by
  · simp
  · simp only [List.length_cons]
    exact Nat.lt_succ_of_le (List.length_filter_le _ _)

/-- `HackerNewsSource.fetch` (src/sources/hackernews.py lines 30-60).
The upstream responses are explicit inputs: `topstories` is the decoded
`topstories.json` id list (`none` models a non-200 status, after which `[]`
is returned), and `story` is the outcome of `_fetch_story` per id (`none`
models a non-200 status, a non-story payload, or a caught exception).  The
code truncates the id list to `limit` and keeps, in order, the per-id
results that are `NewsItem`s. -/
def hackernews_fetch (topstories : Option (List Nat))
    (story : Nat → Option NewsItem) (limit : Nat) : List NewsItem :=
  match topstories with
  | none => []
  | some ids => List.filterMap story (List.take limit ids)

/-- `RSSSourceBase.fetch` (src/sources/rss_feeds.py lines 31-68).  An empty
`feed_url` short-circuits to `[]`; `response` is the parsed feed's entry
list (`none` models a non-200 status or a caught exception before the entry
loop); `parse_entry` is the outcome of `_parse_entry` per entry (`none`
models a missing title).  The code iterates over `feed.entries[:limit]` and
appends each non-`None` parse result. -/
def rss_fetch {α : Type} (feed_url : String) (response : Option (List α))
    (parse_entry : α → Option NewsItem) (limit : Nat) : List NewsItem :=
  if feed_url = "" then []
  else
    match response with
    | none => []
    | some entries => List.filterMap parse_entry (List.take limit entries)

/-- `GitHubTrendingSource._parse_trending_page` (src/sources/github_trending.py
lines 56-72): the selected `article.Box-row` nodes are truncated to `limit`
and each is parsed by `_parse_repo_article`; a `None` result or a raised
exception (caught by the per-article `try`) contributes nothing. -/
def parse_trending_page {α : Type} (articles : List α)
    (parse_repo_article : α → Option NewsItem) (limit : Nat) : List NewsItem :=
  List.filterMap parse_repo_article (List.take limit articles)

/-- `GitHubTrendingSource.fetch` (src/sources/github_trending.py lines
29-54): `none` models a non-200 trending-page response, otherwise the page's
article nodes are handed to `_parse_trending_page`. -/
def github_trending_fetch {α : Type} (response : Option (List α))
    (parse_repo_article : α → Option NewsItem) (limit : Nat) : List NewsItem :=
  match response with
  | none => []
  | some articles => parse_trending_page articles parse_repo_article limit

/-! ### Concrete fixtures used by the witness theorems -/

/-- A concrete item with a url, produced by the enabled source `Good`. -/
def itemA : NewsItem :=
  NewsItem.make "A story" "http://a.example" "sa" "Good" "" 1 []

/-- A concrete item with a url, produced by the disabled source `Off`. -/
def itemB : NewsItem :=
  NewsItem.make "B story" "http://b.example" "sb" "Off" "" 2 []

/-- A concrete item whose url is empty. -/
def itemNoURL : NewsItem :=
  NewsItem.make "no url" "" "" "Good" "" 0 []

/-- An enabled source whose fetch succeeds with `[itemA]`. -/
def srcGood : Source :=
  { name := "Good", enabled := true, fetch := fun _ => Except.ok [itemA] }

/-- An enabled source whose fetch always raises. -/
def srcBad : Source :=
  { name := "Bad", enabled := true, fetch := fun _ => Except.error "boom" }

/-- A disabled source whose fetch succeeds with `[itemB]`. -/
def srcOff : Source :=
  { name := "Off", enabled := false, fetch := fun _ => Except.ok [itemB] }

/-- A concrete registry holding the three fixture sources. -/
def regW : Registry :=
  [srcGood, srcBad, srcOff]

/-- A concrete registry whose only source is disabled. -/
def regOffOnly : Registry :=
  [srcOff]

/-! ### Helper lemmas about `pyStrip` -/

/-- `dropWhile` is idempotent. -/
lemma dropWhile_idem {α : Type} (p : α → Bool) (l : List α) :
    (l.dropWhile p).dropWhile p = l.dropWhile p := by
  induction l with
  | nil => rfl
  | cons a t ih =>
    by_cases h : p a
    · simpa [List.dropWhile_cons, h] using ih
    · simp [List.dropWhile_cons, h]

/-- When `dropWhile` leaves something, it leaves the last element alone. -/
lemma getLast?_dropWhile {α : Type} (p : α → Bool) (l : List α)
    (h : l.dropWhile p ≠ []) : (l.dropWhile p).getLast? = l.getLast? := by
  induction l with
  | nil => simp at h
  | cons a t ih =>
    by_cases hpa : p a
    · rw [List.dropWhile_cons_of_pos hpa] at h ⊢
      rw [ih h]
      have ht : t ≠ [] := by
        intro he
        rw [he] at h
        simp at h
      cases t with
      | nil => exact absurd rfl ht
      | cons b t2 => rw [List.getLast?_cons_cons]
    · rw [List.dropWhile_cons_of_neg hpa]

/-- The head surviving `dropWhile p` fails `p`. -/
lemma head?_dropWhile_false {α : Type} (p : α → Bool) (l : List α) (c : α)
    (h : (l.dropWhile p).head? = some c) : p c = false := by
  have hm := List.head?_dropWhile_not p l
  rw [h] at hm
  exact hm

/-- A list whose head fails `p` is untouched by `dropWhile p`. -/
lemma dropWhile_eq_self_of_head {α : Type} (p : α → Bool) (l : List α)
    (h : ∀ c, l.head? = some c → p c = false) : l.dropWhile p = l := by
  cases l with
  | nil => rfl
  | cons a t =>
    have := h a rfl
    simp [List.dropWhile_cons, this]

/-- The head of a stripped character list is not whitespace. -/
lemma pyStripList_head? (l : List Char) (c : Char)
    (h : (pyStripList l).head? = some c) : c.isWhitespace = false := by
  unfold pyStripList at h
  rw [List.head?_reverse] at h
  rw [getLast?_dropWhile] at h
  · rw [List.getLast?_reverse] at h
    exact head?_dropWhile_false _ _ _ h
  · intro he
    rw [he] at h
    simp at h

/-- `pyStripList` is idempotent. -/
lemma pyStripList_idem (l : List Char) :
    pyStripList (pyStripList l) = pyStripList l := by
  have h1 : (pyStripList l).dropWhile Char.isWhitespace = pyStripList l :=
    dropWhile_eq_self_of_head _ _ (fun c hc => pyStripList_head? l c hc)
  have h2 : (pyStripList l).reverse
      = (l.dropWhile Char.isWhitespace).reverse.dropWhile Char.isWhitespace := by
    simp [pyStripList, List.reverse_reverse]
  show ((((pyStripList l).dropWhile Char.isWhitespace).reverse.dropWhile
      Char.isWhitespace)).reverse = pyStripList l
  rw [h1, h2, dropWhile_idem]
  rfl

/-- `pyStrip` is idempotent: stripped strings are fixed points. -/
lemma pyStrip_idem (s : String) : pyStrip (pyStrip s) = pyStrip s :=
  congrArg String.mk (pyStripList_idem s.data)

/-! ### Helper lemmas about the dedup loop -/

lemma dedupAux_cons_pos (seen : List String) (i : NewsItem) (rest : List NewsItem)
    (h : i.url ≠ "" ∧ i.url ∉ seen) :
    dedupAux seen (i :: rest) = i :: dedupAux (i.url :: seen) rest := by
  simp only [dedupAux]
  rw [if_pos h]

lemma dedupAux_cons_neg (seen : List String) (i : NewsItem) (rest : List NewsItem)
    (h : ¬ (i.url ≠ "" ∧ i.url ∉ seen)) :
    dedupAux seen (i :: rest) = dedupAux seen rest := by
  simp only [dedupAux]
  rw [if_neg h]

/-- The running-`seen` dedup loop equals the declarative first-occurrence
description applied to the not-yet-seen items. -/
lemma dedupAux_eq_dedupSpec (l : List NewsItem) :
    ∀ seen, dedupAux seen l = dedupSpec (List.filter (fun i => i.url ∉ seen) l) := by
  induction l with
  | nil => intro seen; simp [dedupAux, dedupSpec]
  | cons i rest ih =>
    intro seen
    rw [List.filter_cons]
    by_cases hurl : i.url = ""
    · by_cases hseen : i.url ∈ seen
      · rw [dedupAux_cons_neg seen i rest (by simp [hseen]),
          if_neg (by simpa using hseen)]
        exact ih seen
      · rw [dedupAux_cons_neg seen i rest (by simp [hurl]),
          if_pos (by simpa using hseen)]
        rw [show dedupSpec (i :: List.filter (fun j => j.url ∉ seen) rest)
            = dedupSpec (List.filter (fun j => j.url ∉ seen) rest) from by
          rw [dedupSpec]
          rw [if_pos hurl]]
        exact ih seen
    · by_cases hseen : i.url ∈ seen
      · rw [dedupAux_cons_neg seen i rest (by simp [hseen]),
          if_neg (by simpa using hseen)]
        exact ih seen
      · rw [dedupAux_cons_pos seen i rest ⟨hurl, hseen⟩,
          if_pos (by simpa using hseen)]
        rw [show dedupSpec (i :: List.filter (fun j => j.url ∉ seen) rest)
            = i :: dedupSpec (List.filter (fun j => j.url ≠ i.url)
                (List.filter (fun j => j.url ∉ seen) rest)) from by
          rw [dedupSpec]
          rw [if_neg hurl]]
        rw [List.filter_filter]
        rw [show List.filter (fun j => decide (j.url ≠ i.url) && decide (j.url ∉ seen)) rest
            = List.filter (fun j => j.url ∉ i.url :: seen) rest from by
          apply List.filter_congr
          intro j _
          simp [List.mem_cons, not_or, and_comm]]
        rw [ih (i.url :: seen)]

/-- Every item the dedup loop outputs was in its input. -/
lemma mem_of_mem_dedupAux (l : List NewsItem) :
    ∀ seen i, i ∈ dedupAux seen l → i ∈ l := by
  induction l with
  | nil => intro seen i h; exact absurd h (by simp [dedupAux])
  | cons j rest ih =>
    intro seen i h
    by_cases hc : j.url ≠ "" ∧ j.url ∉ seen
    · rw [dedupAux_cons_pos seen j rest hc] at h
      rcases List.mem_cons.mp h with h1 | h2
      · exact h1 ▸ List.mem_cons_self j rest
      · exact List.mem_cons_of_mem j (ih _ i h2)
    · rw [dedupAux_cons_neg seen j rest hc] at h
      exact List.mem_cons_of_mem j (ih _ i h)

/-- Every item the dedup loop outputs has a non-empty url not in the initial
`seen` set. -/
lemma dedupAux_url_not_seen (l : List NewsItem) :
    ∀ seen i, i ∈ dedupAux seen l → i.url ≠ "" ∧ i.url ∉ seen := by
  induction l with
  | nil => intro seen i h; exact absurd h (by simp [dedupAux])
  | cons j rest ih =>
    intro seen i h
    by_cases hc : j.url ≠ "" ∧ j.url ∉ seen
    · rw [dedupAux_cons_pos seen j rest hc] at h
      rcases List.mem_cons.mp h with h1 | h2
      · exact h1 ▸ hc
      · have := ih _ i h2
        exact ⟨this.1, fun hm => this.2 (List.mem_cons_of_mem _ hm)⟩
    · rw [dedupAux_cons_neg seen j rest hc] at h
      exact ih _ i h

/-- The urls in the dedup loop's output are pairwise distinct. -/
lemma dedupAux_urls_nodup (l : List NewsItem) :
    ∀ seen, ((dedupAux seen l).map (fun i => i.url)).Nodup := by
  induction l with
  | nil => intro seen; simp [dedupAux]
  | cons j rest ih =>
    intro seen
    by_cases hc : j.url ≠ "" ∧ j.url ∉ seen
    · rw [dedupAux_cons_pos seen j rest hc]
      rw [List.map_cons, List.nodup_cons]
      refine ⟨?_, ih _⟩
      intro hmem
      rcases List.mem_map.mp hmem with ⟨k, hk, hke⟩
      have := (dedupAux_url_not_seen rest _ k hk).2
      exact this (hke ▸ List.mem_cons_self _ _)
    · rw [dedupAux_cons_neg seen j rest hc]
      exact ih _

/-- A list of distinct-non-empty-url items not yet seen passes the dedup
loop unchanged. -/
lemma dedupAux_fixed (l : List NewsItem) :
    ∀ seen, (∀ i ∈ l, i.url ≠ "" ∧ i.url ∉ seen) →
      ((l.map (fun i => i.url)).Nodup) → dedupAux seen l = l := by
  induction l with
  | nil => intro seen _ _; rfl
  | cons j rest ih =>
    intro seen hin hnd
    rw [List.map_cons, List.nodup_cons] at hnd
    rw [dedupAux_cons_pos seen j rest (hin j (List.mem_cons_self _ _))]
    rw [ih (j.url :: seen) ?_ hnd.2]
    intro i hi
    have h1 := hin i (List.mem_cons_of_mem _ hi)
    refine ⟨h1.1, ?_⟩
    rw [List.mem_cons]
    rintro (he | hs)
    · exact hnd.1 (he ▸ List.mem_map_of_mem (fun i => i.url) hi)
    · exact h1.2 hs

/-! ### Helper lemmas about aggregation -/

lemma collectResults_go (rs : List (Except String (List NewsItem))) :
    ∀ acc, List.foldl
        (fun acc r =>
          match r with
          | Except.ok l => acc ++ l
          | Except.error _ => acc)
        acc rs
      = acc ++ (List.map okItems rs).flatten := by
  induction rs with
  | nil => intro acc; simp
  | cons r t ih =>
    intro acc
    rw [List.foldl_cons, ih, List.map_cons, List.flatten_cons]
    cases r with
    | ok l => simp [okItems, List.append_assoc]
    | error e => simp [okItems]

/-- The aggregation loop concatenates, in order, what each slot
contributes. -/
lemma collectResults_eq (rs : List (Except String (List NewsItem))) :
    collectResults rs = (List.map okItems rs).flatten := by
  rw [collectResults, collectResults_go rs []]
  simp

/-- A slot holding an exception contributes nothing: the aggregation of the
results equals the aggregation with that slot erased. -/
lemma collectResults_eraseIdx (rs : List (Except String (List NewsItem)))
    (k : Nat) (e : String) :
    ∀ (hk : k < rs.length), rs.get ⟨k, hk⟩ = Except.error e →
      collectResults rs = collectResults (rs.eraseIdx k) := by
  induction rs generalizing k with
  | nil => intro hk _; exact absurd hk (by simp)
  | cons r t ih =>
    intro hk hget
    cases k with
    | zero =>
      rw [List.eraseIdx_cons_zero]
      rw [collectResults_eq, collectResults_eq]
      rw [List.map_cons, List.flatten_cons]
      have : r = Except.error e := hget
      rw [this]
      simp [okItems]
    | succ k2 =>
      rw [List.eraseIdx_cons_succ]
      rw [collectResults_eq, collectResults_eq]
      rw [List.map_cons, List.map_cons, List.flatten_cons, List.flatten_cons]
      have hk2 : k2 < t.length := by simpa using hk
      have := ih k2 hk2 hget
      rw [collectResults_eq, collectResults_eq] at this
      rw [this]

/-- Erasing an index commutes with mapping. -/
lemma map_eraseIdx {α β : Type} (f : α → β) (l : List α) :
    ∀ k, List.map f (l.eraseIdx k) = (List.map f l).eraseIdx k := by
  induction l with
  | nil => intro k; cases k <;> rfl
  | cons a t ih =>
    intro k
    cases k with
    | zero => simp
    | succ k2 =>
      rw [List.map_cons, List.eraseIdx_cons_succ, List.eraseIdx_cons_succ,
        List.map_cons, ih k2]

/-- `fetch_all`, with the empty-enabled-set short-circuit absorbed (an empty
source list aggregates and dedups to `[]` anyway). -/
lemma fetch_all_eq (reg : Registry) (limit : Nat) :
    fetch_all reg limit
      = dedup (collectResults
          (List.map (fun s => s.fetch limit) (get_enabled_sources reg))) := by
  simp only [fetch_all]
  by_cases h : (get_enabled_sources reg).isEmpty
  · rw [if_pos h]
    rw [List.isEmpty_iff.mp h]
    rfl
  · rw [if_neg h]

/-! ### Claim theorems -/

/-- C1, counterexample: the claim asserts that an item with an empty `url`
is always kept by the dedup step; on the input list `[itemNoURL]`, whose
single item has an empty url, the dedup loop returns `[]`, so the item is
not kept. -/
theorem c1_counterexample_empty_url_dropped :
    itemNoURL.url = "" ∧ itemNoURL ∈ [itemNoURL] ∧ itemNoURL ∉ dedup [itemNoURL] := by
  decide

/-- C1 (amended): the dedup step of `fetch_all` (identical in
`fetch_sources`) keeps exactly the first occurrence of each non-empty url in
scan order, and removes every item whose url is empty (it does not keep
them, contrary to the original claim). -/
theorem c1_dedup_first_occurrence (items : List NewsItem) :
    dedup items = dedupSpec items := by
  rw [dedup, dedupAux_eq_dedupSpec]
  congr 1
  apply List.filter_eq_self.mpr
  intro a _
  simp

/-- C2: failure isolation in `fetch_all`.  If the `k`-th enabled source's
fetch raises, `fetch_all` returns exactly the deduplicated aggregation of
the remaining enabled sources' results; `fetch_all` is a total function, so
no exception reaches its caller. -/
theorem c2_fetch_all_failure_isolation (reg : Registry) (limit k : Nat)
    (hk : k < (get_enabled_sources reg).length) (e : String)
    (hfail : ((get_enabled_sources reg).get ⟨k, hk⟩).fetch limit = Except.error e) :
    fetch_all reg limit
      = dedup (collectResults (List.map (fun s => s.fetch limit)
          ((get_enabled_sources reg).eraseIdx k))) := by
  rw [fetch_all_eq]
  have hk2 : k < (List.map (fun s => s.fetch limit) (get_enabled_sources reg)).length := by
    simpa using hk
  have hget : (List.map (fun s => s.fetch limit) (get_enabled_sources reg)).get ⟨k, hk2⟩
      = Except.error e := by
    rw [List.get_map]
    exact hfail
  rw [collectResults_eraseIdx _ k e hk2 hget, map_eraseIdx]

/-- C2 witness: in the concrete registry `regW` the second enabled source
(`srcBad`) raises, and `fetch_all` equals the deduplicated aggregation of
the other enabled sources' results. -/
theorem c2_witness :
    ((get_enabled_sources regW).get ⟨1, by decide⟩).fetch 5 = Except.error "boom" ∧
    fetch_all regW 5
      = dedup (collectResults (List.map (fun s => s.fetch 5)
          ((get_enabled_sources regW).eraseIdx 1))) :=
  ⟨rfl, c2_fetch_all_failure_isolation regW 5 1 (by decide) "boom" rfl⟩

/-- C3: `fetch_source` looks the name up in the full registry, ignoring the
`enabled` flag: a registered-but-disabled source is still instantiated and
its fetch's items are returned. -/
theorem c3_fetch_source_ignores_enabled (reg : Registry) (name : String)
    (limit : Nat) (s : Source) (items : List NewsItem)
    (hlook : get_source reg name = some s) (_hdis : s.enabled = false)
    (hfetch : s.fetch limit = Except.ok items) :
    fetch_source reg name limit = Except.ok items := by
  simp only [fetch_source, hlook, hfetch]

/-- C3 witness: the disabled fixture source `srcOff` is found by name and
its fetched items are returned. -/
theorem c3_witness :
    get_source regW "Off" = some srcOff ∧ srcOff.enabled = false ∧
    fetch_source regW "Off" 7 = Except.ok [itemB] :=
  ⟨rfl, rfl, c3_fetch_source_ignores_enabled regW "Off" 7 srcOff [itemB] rfl rfl rfl⟩

/-- C4: for a name absent from the registry, `fetch_source` returns the
empty list as a normal (`ok`, non-raising) outcome. -/
theorem c4_fetch_source_unknown_name (reg : Registry) (name : String)
    (limit : Nat) (habsent : get_source reg name = none) :
    fetch_source reg name limit = Except.ok [] := by
  simp only [fetch_source, habsent]

/-- C4 witness: `"Missing"` is absent from the concrete registry and
`fetch_source` returns `ok []`. -/
theorem c4_witness :
    get_source regW "Missing" = none ∧
    fetch_source regW "Missing" 5 = Except.ok [] :=
  ⟨rfl, c4_fetch_source_unknown_name regW "Missing" 5 rfl⟩

/-- C5: enabled filtering.  `get_enabled_sources` returns exactly the
registered sources whose `enabled` flag is true; when zero sources are
enabled `fetch_all` returns `[]` without raising; and `fetch_all` never
includes an item whose `source` equals a registered-but-disabled source's
name when no enabled source produces items carrying that name. -/
theorem c5_enabled_filtering (reg : Registry) (s : Source) (limit : Nat) :
    (s ∈ get_enabled_sources reg ↔ s ∈ reg ∧ s.enabled = true) ∧
    (get_enabled_sources reg = [] → fetch_all reg limit = []) ∧
    (s ∈ reg → s.enabled = false →
      (∀ t, t ∈ reg → t.enabled = true →
        ∀ i ∈ okItems (t.fetch limit), i.source ≠ s.name) →
      ∀ i ∈ fetch_all reg limit, i.source ≠ s.name) := by
  refine ⟨?_, ?_, ?_⟩
  · simp [get_enabled_sources, List.mem_filter]
  · intro h
    rw [fetch_all_eq, h]
    rfl
  · intro _ _ hsole i hi
    rw [fetch_all_eq] at hi
    have hi2 := mem_of_mem_dedupAux _ [] i hi
    rw [collectResults_eq] at hi2
    rcases List.mem_flatten.mp hi2 with ⟨l, hl, hil⟩
    rcases List.mem_map.mp hl with ⟨r, hr, hrl⟩
    rcases List.mem_map.mp hr with ⟨t, ht, htr⟩
    have ht2 := List.mem_filter.mp ht
    subst htr
    subst hrl
    exact hsole t ht2.1 ht2.2 i hil

/-- C5 witness: in `regW`, `srcOff` is registered but disabled, no enabled
source produces items tagged with its name, and no item of `fetch_all`
carries that name; in `regOffOnly` zero sources are enabled and `fetch_all`
returns `[]`. -/
theorem c5_witness :
    srcOff ∈ regW ∧ srcOff.enabled = false ∧
    (∀ i ∈ fetch_all regW 5, i.source ≠ srcOff.name) ∧
    fetch_all regOffOnly 5 = [] :=
  ⟨by simp [regW], rfl,
    (c5_enabled_filtering regW srcOff 5).2.2 (by simp [regW]) rfl
      (by
        intro t ht hen
        simp only [regW, List.mem_cons, List.not_mem_nil, or_false] at ht
        rcases ht with h1 | h1 | h1
        · subst h1
          decide
        · subst h1
          decide
        · subst h1
          exact absurd hen (by decide)),
    (c5_enabled_filtering regOffOnly srcOff 5).2.1 rfl⟩

/-- C6: round-trip — serializing any constructed `NewsItem` with `to_dict`
and rebuilding it with the dataclass constructor (which re-runs
`__post_init__`) yields an item equal to the original in all seven fields
(title and summary are already trimmed, so re-trimming fixes nothing). -/
theorem c6_to_dict_round_trip (title url summary source published_at : String)
    (score : Int) (extra : List (String × String)) :
    newsItemOfDict
        (NewsItem.to_dict (NewsItem.make title url summary source published_at score extra))
      = NewsItem.make title url summary source published_at score extra := by
  simp [newsItemOfDict, NewsItem.to_dict, NewsItem.make, pyStrip_idem]

/-- C7: limit respected — each of the three source implementations returns
at most `limit` items, for every upstream response (id list and per-story
outcomes for HackerNews; entry list and per-entry parse for the RSS family;
article nodes and per-article parse for GitHub Trending). -/
theorem c7_limit_respected {α β : Type} (topstories : Option (List Nat))
    (story : Nat → Option NewsItem) (feed_url : String)
    (response : Option (List α)) (parse_entry : α → Option NewsItem)
    (page : Option (List β)) (parse_repo_article : β → Option NewsItem)
    (k : Nat) :
    (hackernews_fetch topstories story k).length ≤ k ∧
    (rss_fetch feed_url response parse_entry k).length ≤ k ∧
    (github_trending_fetch page parse_repo_article k).length ≤ k ∧
    (∀ articles : List β,
      (parse_trending_page articles parse_repo_article k).length ≤ k) := by
  have hptp : ∀ articles : List β,
      (parse_trending_page articles parse_repo_article k).length ≤ k := by
    intro articles
    exact le_trans (List.length_filterMap_le _ _) (List.length_take_le _ _)
  refine ⟨?_, ?_, ?_, hptp⟩
  · cases topstories with
    | none => simp [hackernews_fetch]
    | some ids =>
      exact le_trans (List.length_filterMap_le _ _) (List.length_take_le _ _)
  · by_cases hurl : feed_url = ""
    · simp [rss_fetch, hurl]
    · cases response with
      | none => simp [rss_fetch, hurl]
      | some entries =>
        calc (rss_fetch feed_url (some entries) parse_entry k).length
            = (List.filterMap parse_entry (List.take k entries)).length := by
              simp [rss_fetch, hurl]
          _ ≤ k := le_trans (List.length_filterMap_le _ _) (List.length_take_le _ _)
  · cases page with
    | none => simp [github_trending_fetch]
    | some articles => exact hptp articles

/-- C8: the URL-dedup step is idempotent — its output consists of items with
pairwise-distinct non-empty urls, which a second pass keeps unchanged. -/
theorem c8_dedup_idempotent (items : List NewsItem) :
    dedup (dedup items) = dedup items := by
  rw [dedup, dedup]
  apply dedupAux_fixed
  · intro i hi
    have := dedupAux_url_not_seen items [] i hi
    exact ⟨this.1, by simp⟩
  · exact dedupAux_urls_nodup items []

/-- C9: construction invariant — every constructed `NewsItem` carries all
seven fields (the defaulted constructor fills `summary`, `source`,
`published_at`, `score`, `extra` with `""`, `""`, `""`, `0`, `{}`), title
and summary are whitespace-trimmed (fixed points of `pyStrip`), and the
other fields are stored unchanged. -/
theorem c9_construction_invariant (title url summary source published_at : String)
    (score : Int) (extra : List (String × String)) :
    pyStrip (NewsItem.make title url summary source published_at score extra).title
        = (NewsItem.make title url summary source published_at score extra).title ∧
    pyStrip (NewsItem.make title url summary source published_at score extra).summary
        = (NewsItem.make title url summary source published_at score extra).summary ∧
    (NewsItem.make title url summary source published_at score extra).title
        = pyStrip title ∧
    (NewsItem.make title url summary source published_at score extra).summary
        = pyStrip summary ∧
    (NewsItem.make title url summary source published_at score extra).url = url ∧
    (NewsItem.make title url summary source published_at score extra).source = source ∧
    (NewsItem.make title url summary source published_at score extra).published_at
        = published_at ∧
    (NewsItem.make title url summary source published_at score extra).score = score ∧
    (NewsItem.make title url summary source published_at score extra).extra = extra ∧
    (NewsItem.makeDefault title url).summary = "" ∧
    (NewsItem.makeDefault title url).source = "" ∧
    (NewsItem.makeDefault title url).published_at = "" ∧
    (NewsItem.makeDefault title url).score = 0 ∧
    (NewsItem.makeDefault title url).extra = [] :=
  ⟨pyStrip_idem title, pyStrip_idem summary, rfl, rfl, rfl, rfl, rfl, rfl, rfl,
    by simp [NewsItem.makeDefault, NewsItem.make, pyStrip, pyStripList],
    rfl, rfl, rfl, rfl⟩

/-- C10: when the named source exists but its fetch raises, `fetch_source`
propagates the exception to its own caller, while inside `fetch_sources`
the same failure is swallowed by the gather loop (a non-list result is
discarded) and the remaining names' results are aggregated. -/
theorem c10_fetch_source_propagates (reg : Registry) (name : String)
    (s : Source) (limit : Nat) (e : String) (rest : List String)
    (hlook : get_source reg name = some s)
    (hfail : s.fetch limit = Except.error e) :
    fetch_source reg name limit = Except.error e ∧
    fetch_sources reg (name :: rest) limit
      = dedup (collectResults (List.map (fun n => fetch_source reg n limit) rest)) := by
  have h1 : fetch_source reg name limit = Except.error e := by
    simp only [fetch_source, hlook, hfail]
  refine ⟨h1, ?_⟩
  simp only [fetch_sources, List.map_cons, h1]
  rfl

/-- C10 witness: the concrete failing source `srcBad` is found by name, its
exception propagates out of `fetch_source`, and `fetch_sources` on that
single name returns `[]` without raising. -/
theorem c10_witness :
    get_source regW "Bad" = some srcBad ∧
    srcBad.fetch 3 = Except.error "boom" ∧
    fetch_source regW "Bad" 3 = Except.error "boom" ∧
    fetch_sources regW ["Bad"] 3 = [] :=
  ⟨rfl, rfl,
    (c10_fetch_source_propagates regW "Bad" srcBad 3 "boom" [] rfl rfl).1,
    Eq.trans ((c10_fetch_source_propagates regW "Bad" srcBad 3 "boom" [] rfl rfl).2) rfl⟩

end NewsCollector
